import Mathlib

/-!
Verification of the v9_worker component-execution substrate.

The Rust sources are shallowly embedded:
* machine integers (`u16`, `u32`, `usize`) are `Nat` with the conversion
  bounds made explicit where the code performs a fallible `try_into`;
* `Instant` timestamps and `Duration` values are `Nat` time units
  (seconds for the wrapper/stat-window clocks);
* `f64` statistics are modelled as exact rationals `ℚ` (all values the
  claims mention are dyadic and hence exactly representable);
* fallible Rust functions returning `Result<V, WorkerError>` become
  `Except WorkerErrorKind V`;
* the OS behaviour behind `poll`/`read`/`write` syscalls is supplied as an
  explicit oracle (a list of per-iteration outcomes), and the wall-clock
  deadline of a retry loop is modelled by exhaustion of that oracle list;
* foreign error payloads (`io::Error`, `ExitStatus`, …) are carried as
  their already-formatted display strings.
-/

namespace V9Worker

/-! ## src/error.rs -/

/-- Embedding of `WorkerErrorKind` (src/error.rs).  Payloads that are
foreign types in Rust (`io::Error`, `ExitStatus`, `OsString`, …) are
carried as their formatted display/debug strings. -/
inductive WorkerErrorKind where
  | docker (exitStatus stdoutStr stderrStr : String)
  | hyper (e : String)
  | ioError (e : String)
  | integerConversion (e : String)
  | internalJsonHandling (e : String)
  | invalidSerialization (problem : String) (l : List Nat)
  | invalidUtf8 (e : String)
  | nix (e : String)
  | operationTimedOut (opName : String)
  | osStringConversion (s : String)
  | pathNotFound (path : String)
  | pipeDisconnected
  | regex (e : String)
  | subprocessStart (e : String)
  | subprocessTerminated (exitStatus : String)
  | tokioJoinError (e : String)
  | unsupportedPlatform (plat : String)
  | wrongMethod
deriving DecidableEq, Repr

/-- Embedding of the Rust debug formatting (the format spec ?)  of a `Vec<u8>`, e.g. `[10, 20]`. -/
def debugBytes (l : List Nat) : String :=
  "[" ++ String.intercalate ", " (l.map toString) ++ "]"

/-- Embedding of `impl Display for WorkerError` (src/error.rs lines 61-156):
the display string of each error kind. -/
def WorkerErrorKind.display : WorkerErrorKind → String
  | .docker es out err =>
      "WorkerError, caused by internal Docker error: exit_status = " ++ es ++
        ", output = (" ++ out ++ ", " ++ err ++ ")"
  | .hyper e => "WorkerError, caused by internal hyper error: " ++ e
  | .ioError e => "WorkerError, caused by internal I/O error: " ++ e
  | .integerConversion e =>
      "WorkerError, caused by internal integer conversion error: " ++ e
  | .internalJsonHandling e =>
      "WorkerError, caused by internal serde_json error: " ++ e
  | .invalidSerialization problem l =>
      "WorkerError, " ++ problem ++ " with invalid series of bytes: " ++ debugBytes l
  | .invalidUtf8 e => "WorkerError, caused by internal utf8 decode error: " ++ e
  | .nix e => "WorkerError, caused by internal unix error: " ++ e
  | .operationTimedOut opName => "WorkerError, " ++ opName ++ " operation timed out"
  | .osStringConversion s =>
      "WorkerError, caused by problematic OsString (" ++ s ++ ")"
  | .pathNotFound path => "WorkerError, path not found: " ++ path
  | .pipeDisconnected => "Worker Error, internal pipe disconnected"
  | .regex e => "Worker Error, invalid regex: " ++ e
  | .subprocessStart e => "WorkerError, caused by internal subprocess error: " ++ e
  | .subprocessTerminated es =>
      "WorkerError, caused by subprocess terminating, with code " ++ es
  | .tokioJoinError e => "WorkerError, caused by internal tokio join error: " ++ e
  | .unsupportedPlatform plat => "WorkerError, unsupported platform: " ++ plat
  | .wrongMethod => "WorkerError, invalid http verb"

/-- An HTTP response as the worker builds it: a status code and a body. -/
structure HttpResponse where
  status : Nat
  body : String
deriving DecidableEq, Repr

/-- Embedding of `impl Into<Response<Body>> for WorkerError`
(src/error.rs lines 158-182). -/
def WorkerErrorKind.intoResponse : WorkerErrorKind → HttpResponse
  | .pathNotFound _ => ⟨404, "v9: worker 404"⟩
  | .wrongMethod => ⟨405, ""⟩
  | e => ⟨543, e.display⟩

/-! ## src/model.rs -/

/-- Embedding of `ExecutionMethod` (src/model.rs lines 22-28).  The enum in
model.rs has exactly these two variants; src/component/isolation.rs
additionally matches on an `ExecutionMethod::ContainerizedScript` variant
that model.rs does not define. -/
inductive ExecutionMethod where
  | DockerArchive
  | PythonUnsafe
deriving DecidableEq, Repr

/-- Embedding of the serde deserialization of the `execution_method` field, per the
`#[serde(rename = ...)]` attributes on `ExecutionMethod` in src/model.rs:
only the two renamed strings are accepted. -/
def parseExecutionMethod (s : String) : Option ExecutionMethod :=
  if s = "docker-archive" then some .DockerArchive
  else if s = "python-unsafe" then some .PythonUnsafe
  else none

/-- The controllers `IsolatedProcessWrapper::new` can construct
(src/component/isolation.rs lines 29-37), restricted to the variants that
the model.rs `ExecutionMethod` defines. -/
inductive ControllerKind where
  | dockerArchiveController
  | pythonUnsafeController
deriving DecidableEq, Repr

/-- The `ExecutionMethod → controller` selection of
`IsolatedProcessWrapper::new`, restricted to the two variants model.rs
defines. -/
def controllerFor : ExecutionMethod → ControllerKind
  | .DockerArchive => .dockerArchiveController
  | .PythonUnsafe => .pythonUnsafeController

/-! ## src/named_pipe.rs

The FIFO file descriptors and the wall clock are abstracted by oracles:
`accepts` lists how many bytes each `write(2)` call accepts, and a list of
`ReadEvent`s lists what each `poll`+`read(2)` iteration of `read` observes.
The `PIPE_IO_TIMEOUT` deadline of each retry loop is modelled by the
exhaustion of the corresponding oracle list. -/

/-- The per-iteration outcome of the read loop of `NamedPipe::read`:
the bytes `read(2)` returned (`[]` is a zero-byte read), or an `EAGAIN`
that makes the loop sleep and retry. -/
inductive ReadEvent where
  | chunk (bytes : List Nat)
  | eagain
deriving DecidableEq, Repr

/-- The write loop of `NamedPipe::write` (src/named_pipe.rs lines 134-147):
starting from cursor `idx` into the framed buffer `buf`, each iteration
passes the slice `buf[idx..]` to `write(2)`, which accepts the next count
from the oracle `accepts`; partial writes advance the cursor.  Returns the
final result together with the list of slices handed to `write(2)`.
Oracle exhaustion models the `PIPE_IO_TIMEOUT` deadline elapsing
(src/named_pipe.rs lines 150-152). -/
def writeLoop : List Nat → List Nat → Nat → Except WorkerErrorKind Unit × List (List Nat)
  | [], buf, idx =>
      if idx < buf.length then (.error (.operationTimedOut "pipe writing"), [])
      else (.ok (), [])
  | a :: rest, buf, idx =>
      if idx < buf.length then
        let slice := buf.drop idx
        let r := writeLoop rest buf (idx + min a slice.length)
        (r.1, slice :: r.2)
      else (.ok (), [])

/-- Embedding of `NamedPipe::write` (src/named_pipe.rs lines 120-155):
reject a payload containing a newline byte before touching the FIFO,
otherwise append a single `\n` and drain through the write loop.
The second component is the list of slices handed to `write(2)`. -/
def pipeWrite (v : List Nat) (accepts : List Nat) :
    Except WorkerErrorKind Unit × List (List Nat) :=
  if 10 ∈ v then
    (.error (.invalidSerialization "contains newline" v), [])
  else
    writeLoop accepts (v ++ [10]) 0

/-- The inner byte scan of `NamedPipe::read` (src/named_pipe.rs lines
202-207): push each byte of the freshly read chunk onto `result`,
returning early (flag `true`) once a `\n` has been pushed. -/
def scanChunk : List Nat → List Nat → List Nat × Bool
  | acc, [] => (acc, false)
  | acc, b :: rest =>
      if b = 10 then (acc ++ [b], true)
      else scanChunk (acc ++ [b]) rest

/-- The read loop of `NamedPipe::read` (src/named_pipe.rs lines 169-208)
over the oracle of per-iteration outcomes: `EAGAIN` sleeps and retries, a
zero-byte read fails with `PipeDisconnected`, and bytes are accumulated
until a `\n` is consumed.  Oracle exhaustion models the deadline check
(src/named_pipe.rs lines 179-181). -/
def readLoop : List ReadEvent → List Nat → Except WorkerErrorKind (List Nat)
  | [], _ => .error (.operationTimedOut "pipe reading")
  | .eagain :: rest, acc => readLoop rest acc
  | .chunk [] :: _, _ => .error .pipeDisconnected
  | .chunk bs :: rest, acc =>
      match scanChunk acc bs with
      | (acc2, true) => .ok acc2
      | (acc2, false) => readLoop rest acc2

/-- Embedding of `NamedPipe::read` (src/named_pipe.rs lines 161-209):
run the read loop with an empty result buffer. -/
def pipeRead (events : List ReadEvent) : Except WorkerErrorKind (List Nat) :=
  readLoop events []

/-! ## src/component/stats.rs -/

/-- Embedding of `StatEvent` (src/component/stats.rs lines 15-20).
The field `arrival` embeds the source field named at (a Lean keyword): the
arrival `Instant`, modelled as a `Nat` timestamp. -/
structure StatEvent where
  arrival : Nat
  duration_ms : Nat
  response_bytes : Nat
deriving DecidableEq, Repr

/-- The constant `DEFAULT_STAT_WINDOW`: 5 minutes, in seconds
(src/component/stats.rs line 6). -/
def DEFAULT_STAT_WINDOW : Nat := 5 * 60

/-- Embedding of `StatTracker` (src/component/stats.rs lines 8-13).  The
`VecDeque` is a list whose head is the front (oldest event). -/
structure StatTracker where
  stat_window : Nat
  event_deque : List StatEvent
deriving DecidableEq, Repr

/-- Embedding of `ComponentStats` (src/model.rs lines 80-89), with the
`f64` fields modelled as exact rationals. -/
structure ComponentStats where
  stat_window_seconds : ℚ
  hits : ℚ
  avg_response_bytes : ℚ
  avg_ms_latency : ℚ
  ms_latency_percentiles : List ℚ
deriving DecidableEq, Repr

/-- Embedding of `StatTracker::pop_old_events` (src/component/stats.rs
lines 84-89): pop from the front while the front event is older than
`now - stat_window` (`Nat` subtraction truncates at zero, matching the
fact that `Instant` arithmetic never goes below the epoch). -/
def StatTracker.pop_old_events (t : StatTracker) (now : Nat) : StatTracker :=
  { t with event_deque := t.event_deque.dropWhile fun e => e.arrival < now - t.stat_window }

/-- Embedding of `StatTracker::add_stat_event` (src/component/stats.rs
lines 74-82): push a new event stamped `now` at the back, then prune. -/
def StatTracker.add_stat_event (t : StatTracker) (now duration_ms response_bytes : Nat) :
    StatTracker :=
  StatTracker.pop_old_events
    { t with event_deque := t.event_deque ++ [⟨now, duration_ms, response_bytes⟩] } now

/-- The constant `PERCENTILE_BUCKETS` (src/component/stats.rs line 92). -/
def PERCENTILE_BUCKETS : Nat := 10

/-- Embedding of `calculate_latency_percentiles` (src/component/stats.rs
lines 94-121): sort the latencies ascending, slice into
`PERCENTILE_BUCKETS` contiguous buckets whose starting index is
`i * (n / 10) + min i (n % 10)`, and for each non-empty bucket push the
bucket total divided by the bucket size.  The bucket total
`let total_latency: u32 = slice.iter().sum()` (line 115) is a `u32`
accumulation, modelled as the `Nat` sum reduced mod `2 ^ 32`. -/
def calculate_latency_percentiles (entries : List StatEvent) : List ℚ :=
  let latencies := (entries.map (·.duration_ms)).insertionSort (· ≤ ·)
  let rough_bucket_size := latencies.length / PERCENTILE_BUCKETS
  let additional_items := latencies.length % PERCENTILE_BUCKETS
  (List.range PERCENTILE_BUCKETS).foldl
    (fun res i =>
      let starting_index := i * rough_bucket_size + min i additional_items
      let next_starting_index := (i + 1) * rough_bucket_size + min (i + 1) additional_items
      let slice := (latencies.drop starting_index).take (next_starting_index - starting_index)
      if slice.isEmpty then res
      else res ++ [(((slice.sum % 2 ^ 32 : Nat) : ℚ) / (slice.length : ℚ))])
    []

/-- Embedding of `StatTracker::get_component_stats` (src/component/stats.rs
lines 32-72): prune, then report window length, hit count, mean response
bytes, mean latency and the decile percentile vector; an empty window
reports zero means and an empty percentile list.  Returns the stats
together with the pruned tracker. -/
def StatTracker.get_component_stats (t : StatTracker) (now : Nat) :
    ComponentStats × StatTracker :=
  let t := t.pop_old_events now
  let stat_window_seconds : ℚ := t.stat_window
  let hits : ℚ := t.event_deque.length
  if t.event_deque.isEmpty then
    (⟨stat_window_seconds, hits, 0, 0, []⟩, t)
  else
    let avg_response_bytes :=
      ((t.event_deque.map fun e => (e.response_bytes : ℚ)).sum) / hits
    let avg_ms_latency :=
      ((t.event_deque.map fun e => (e.duration_ms : ℚ)).sum) / hits
    (⟨stat_window_seconds, hits, avg_response_bytes, avg_ms_latency,
       calculate_latency_percentiles t.event_deque⟩, t)

/-! ## src/component/isolation.rs

`Box<dyn ProcessIsolationController>` and `Box<dyn IsolatedProcessHandle>`
are abstracted by type parameters `C` and `H`; the effect of
`boot_process()` on this call and of the handle method `query_process` are
supplied as oracle arguments (the boot result, and a function from the
handle to its query result plus its post-call state, mirroring the
`&mut self` receiver). -/

/-- The constant `EXPIRY_DURATION`: 10 minutes, in seconds
(src/component/isolation.rs lines 13-14). -/
def EXPIRY_DURATION : Nat := 60 * 10

/-- Embedding of `IsolatedProcessWrapper` (src/component/isolation.rs
lines 16-22): a controller, an optional process handle, and the
last-accessed timestamp. -/
structure IsolatedProcessWrapper (C H : Type) where
  isolation_controller : C
  process_handle : Option H
  last_accessed : Nat
deriving Repr

/-- Embedding of `IsolatedProcessWrapper::query_process`
(src/component/isolation.rs lines 54-73): stamp `last_accessed := now`
first; boot via the controller when unbooted, propagating a boot failure;
query the handle; on a query error clear the handle before returning the
error. -/
def IsolatedProcessWrapper.query_process {C H : Type}
    (w : IsolatedProcessWrapper C H) (now : Nat)
    (bootResult : Except WorkerErrorKind H)
    (handleQuery : H → Except WorkerErrorKind String × H) :
    Except WorkerErrorKind String × IsolatedProcessWrapper C H :=
  let w := { w with last_accessed := now }
  let booted : Except WorkerErrorKind (IsolatedProcessWrapper C H) :=
    match w.process_handle with
    | some _ => .ok w
    | none =>
        match bootResult with
        | .error e => .error e
        | .ok h => .ok { w with process_handle := some h }
  match booted with
  | .error e => (.error e, w)
  | .ok w2 =>
      match w2.process_handle with
      | none => (.error .pipeDisconnected, w2)
      | some h =>
          let r := handleQuery h
          match r.1 with
          | .error e => (.error e, { w2 with process_handle := none })
          | .ok s => (.ok s, { w2 with process_handle := some r.2 })

/-- Embedding of `IsolatedProcessWrapper::heartbeat`
(src/component/isolation.rs lines 76-85): a no-op when unbooted; clear
the handle when `now - last_accessed > EXPIRY_DURATION`. -/
def IsolatedProcessWrapper.heartbeat {C H : Type}
    (w : IsolatedProcessWrapper C H) (now : Nat) : IsolatedProcessWrapper C H :=
  if w.process_handle.isNone then w
  else if now - w.last_accessed > EXPIRY_DURATION then
    { w with process_handle := none }
  else w

/-! ## src/component/mod.rs -/

/-- Embedding of `ComponentResponse` (src/model.rs lines 116-121);
`http_response_code` is a `u32` value. -/
structure ComponentResponse where
  response_body : String
  http_response_code : Nat
  error_message : Option String
deriving DecidableEq, Repr

/-- The tail of `ComponentHandle::handle_component_call`
(src/component/mod.rs lines 287-309), from the point where a decoded
`ComponentResponse` is in hand: convert the response code to `u16`
(fallible), return the declared code with the error message as body when
`error_message` is non-empty, otherwise build the response from
`response_body`, record the elapsed milliseconds and the body byte count
into the stats tracker (both recorded values pass a fallible `u32`
conversion), and return the response.  `elapsedMs` is
`start.elapsed().as_millis()` and `now` the `Instant` used by
`add_stat_event`. -/
def handleDecodedResponse (tracker : StatTracker) (now elapsedMs : Nat)
    (response : ComponentResponse) :
    Except WorkerErrorKind HttpResponse × StatTracker :=
  if response.http_response_code ≥ 2 ^ 16 then
    (.error (.integerConversion "out of range integral type conversion attempted"), tracker)
  else
    let errorCase : Bool :=
      match response.error_message with
      | some m => !(m == "")
      | none => false
    if errorCase then
      (.ok ⟨response.http_response_code,
            response.error_message.getD ""⟩, tracker)
    else
      let response_bytes := response.response_body.utf8ByteSize
      if elapsedMs ≥ 2 ^ 32 then
        (.error (.integerConversion "out of range integral type conversion attempted"), tracker)
      else if response_bytes ≥ 2 ^ 32 then
        (.error (.integerConversion "out of range integral type conversion attempted"), tracker)
      else
        (.ok ⟨response.http_response_code, response.response_body⟩,
         tracker.add_stat_event now elapsedMs response_bytes)

/-! ## Percent encoding (the `percent_encoding` crate with
`NON_ALPHANUMERIC`, as used in src/component/mod.rs lines 276-282) -/

/-- Whether a byte is an ASCII alphanumeric, the complement of the
`NON_ALPHANUMERIC` ascii set. -/
def isAsciiAlphanumericByte (b : Nat) : Bool :=
  (48 ≤ b && b ≤ 57) || (65 ≤ b && b ≤ 90) || (97 ≤ b && b ≤ 122)

/-- The uppercase hex digit character codes used by percent encoding. -/
def hexDigitByte (n : Nat) : Nat :=
  if n < 10 then 48 + n else 55 + n

/-- Percent-encode one byte under `NON_ALPHANUMERIC`: alphanumerics pass
through, every other byte becomes `%XX`. -/
def percentEncodeByte (b : Nat) : List Nat :=
  if isAsciiAlphanumericByte b then [b]
  else [37, hexDigitByte (b / 16 % 16), hexDigitByte (b % 16)]

/-- Embedding of `utf8_percent_encode(s, NON_ALPHANUMERIC)` on a byte sequence. -/
def percentEncode (v : List Nat) : List Nat :=
  (v.map percentEncodeByte).flatten

/-! ## Theorems -/

/-- C1: every worker-internal error converted to an HTTP response obeys the
status-code contract: a `PathNotFound` error yields status 404 with body
exactly "v9: worker 404", a `WrongMethod` error yields status 405 with an
empty body, and every other `WorkerError` yields status 543 with the
display string of the error as the body. -/
theorem error_into_response_contract (e : WorkerErrorKind) :
    (∀ p, e = .pathNotFound p → e.intoResponse = ⟨404, "v9: worker 404"⟩) ∧
    (e = .wrongMethod → e.intoResponse = ⟨405, ""⟩) ∧
    ((∀ p, e ≠ .pathNotFound p) → e ≠ .wrongMethod →
      e.intoResponse = ⟨543, e.display⟩) := by
  refine ⟨?_, ?_, ?_⟩
  · rintro p rfl; rfl
  · rintro rfl; rfl
  · intro hp hw
    cases e
    case pathNotFound p => exact absurd rfl (hp p)
    case wrongMethod => exact absurd rfl hw
    all_goals rfl

/-- Witness for C1: the conversion evaluated on the three representative
concrete errors. -/
theorem error_into_response_contract_witness :
    WorkerErrorKind.intoResponse (.pathNotFound "nonsense") = ⟨404, "v9: worker 404"⟩ ∧
    WorkerErrorKind.intoResponse .wrongMethod = ⟨405, ""⟩ ∧
    WorkerErrorKind.intoResponse .pipeDisconnected =
      ⟨543, "Worker Error, internal pipe disconnected"⟩ := by
  refine ⟨?_, ?_, ?_⟩
  · exact (error_into_response_contract (.pathNotFound "nonsense")).1 "nonsense" rfl
  · exact (error_into_response_contract .wrongMethod).2.1 rfl
  · exact (error_into_response_contract .pipeDisconnected).2.2
      (fun p h => WorkerErrorKind.noConfusion h)
      (fun h => WorkerErrorKind.noConfusion h)

/-- C9 (code bug witness): the `ExecutionMethod` enum of src/model.rs has
exactly two variants, so `execution_method` deserializes from only the two
strings "docker-archive" and "python-unsafe" each mapping to its
controller, while the string "containerized-script" named by the spec (and
matched by src/component/isolation.rs as `ExecutionMethod::ContainerizedScript`)
is rejected by the deserializer. -/
theorem execution_method_two_variants :
    parseExecutionMethod "containerized-script" = none ∧
    parseExecutionMethod "python-unsafe" = some .PythonUnsafe ∧
    parseExecutionMethod "docker-archive" = some .DockerArchive ∧
    (∀ s m, parseExecutionMethod s = some m →
      s = "docker-archive" ∨ s = "python-unsafe") ∧
    controllerFor .PythonUnsafe = .pythonUnsafeController ∧
    controllerFor .DockerArchive = .dockerArchiveController := by
  refine ⟨by decide, rfl, rfl, ?_, rfl, rfl⟩
  intro s m h
  unfold parseExecutionMethod at h
  by_cases h1 : s = "docker-archive"
  · exact Or.inl h1
  · by_cases h2 : s = "python-unsafe"
    · exact Or.inr h2
    · simp [h1, h2] at h

/-- C2: for a booted wrapper whose handle query errors, `query_process`
clears the process handle (leaving the wrapper Unbooted, with the
controller unchanged) and returns that error; for an unbooted wrapper
whose boot fails, the boot error is returned, the wrapper stays Unbooted
and the isolation controller is kept unchanged for retry on the next
call. -/
theorem query_process_failure_recovery {C H : Type}
    (w : IsolatedProcessWrapper C H) (now : Nat)
    (bootResult : Except WorkerErrorKind H)
    (handleQuery : H → Except WorkerErrorKind String × H) :
    (∀ h h2 e, w.process_handle = some h → handleQuery h = (.error e, h2) →
      w.query_process now bootResult handleQuery =
        (.error e,
         { isolation_controller := w.isolation_controller,
           process_handle := none,
           last_accessed := now })) ∧
    (∀ e, w.process_handle = none → bootResult = .error e →
      w.query_process now bootResult handleQuery =
        (.error e,
         { isolation_controller := w.isolation_controller,
           process_handle := none,
           last_accessed := now })) := by
  constructor
  · intro h h2 e hw hq
    simp [IsolatedProcessWrapper.query_process, hw, hq]
  · intro e hw hb
    simp [IsolatedProcessWrapper.query_process, hw, hb]

/-- Witness for C2: both failure paths evaluated on a concrete wrapper
over `C = Nat`, `H = Nat`. -/
theorem query_process_failure_recovery_witness :
    (IsolatedProcessWrapper.query_process (C := Nat) (H := Nat)
        ⟨7, some 1, 0⟩ 5 (.ok 2) (fun _ => (.error .pipeDisconnected, 1)) =
      (.error .pipeDisconnected, ⟨7, none, 5⟩)) ∧
    (IsolatedProcessWrapper.query_process (C := Nat) (H := Nat)
        ⟨7, none, 0⟩ 5 (.error (.operationTimedOut "fifo pipe opening"))
        (fun h => (.ok "resp", h)) =
      (.error (.operationTimedOut "fifo pipe opening"), ⟨7, none, 5⟩)) := by
  constructor
  · exact (query_process_failure_recovery ⟨7, some 1, 0⟩ 5 (.ok 2)
      (fun _ => (.error .pipeDisconnected, 1))).1 1 1 .pipeDisconnected rfl rfl
  · exact (query_process_failure_recovery ⟨7, none, 0⟩ 5
      (.error (.operationTimedOut "fifo pipe opening"))
      (fun h => (.ok "resp", h))).2 (.operationTimedOut "fifo pipe opening") rfl rfl

/-- C8: `heartbeat` clears the process handle exactly when the wrapper is
Booted and `now - last_accessed` exceeds `EXPIRY_DURATION` (10 minutes);
it is a no-op on an Unbooted wrapper and on a recently accessed Booted
wrapper; and every `query_process` call stamps `last_accessed := now`
(on every path, including both failure paths). -/
theorem heartbeat_expiry_contract {C H : Type}
    (w : IsolatedProcessWrapper C H) (now : Nat) :
    (w.process_handle = none → w.heartbeat now = w) ∧
    (w.process_handle.isSome → ¬ (now - w.last_accessed > EXPIRY_DURATION) →
      w.heartbeat now = w) ∧
    (w.process_handle.isSome → now - w.last_accessed > EXPIRY_DURATION →
      (w.heartbeat now).process_handle = none ∧
      (w.heartbeat now).isolation_controller = w.isolation_controller) ∧
    ((w.heartbeat now).process_handle = none ↔
      (w.process_handle = none ∨ now - w.last_accessed > EXPIRY_DURATION)) ∧
    (∀ bootResult handleQuery,
      (w.query_process now bootResult handleQuery).2.last_accessed = now) := by
  refine ⟨?_, ?_, ?_, ?_, ?_⟩
  · intro h
    simp [IsolatedProcessWrapper.heartbeat, h]
  · intro h hexp
    cases h' : w.process_handle with
    | none => rw [h'] at h; simp at h
    | some _ => simp [IsolatedProcessWrapper.heartbeat, h', hexp]
  · intro h hexp
    cases h' : w.process_handle with
    | none => rw [h'] at h; simp at h
    | some _ => simp [IsolatedProcessWrapper.heartbeat, h', hexp]
  · cases h' : w.process_handle with
    | none => simp [IsolatedProcessWrapper.heartbeat, h']
    | some _ =>
        by_cases hexp : now - w.last_accessed > EXPIRY_DURATION <;>
          simp [IsolatedProcessWrapper.heartbeat, h', hexp]
  · intro bootResult handleQuery
    unfold IsolatedProcessWrapper.query_process
    cases w.process_handle with
    | none =>
        cases bootResult with
        | error e => rfl
        | ok h =>
            cases hq : (handleQuery h).1 with
            | error e => simp [hq]
            | ok s => simp [hq]
    | some h =>
        cases hq : (handleQuery h).1 with
        | error e => simp [hq]
        | ok s => simp [hq]

/-- Witness for C8: the heartbeat evaluated on concrete wrappers over
`C = Nat`, `H = Nat`: an expired Booted wrapper is cleared, a fresh Booted
wrapper and an Unbooted wrapper are untouched, and a query stamps the
access time. -/
theorem heartbeat_expiry_contract_witness :
    (IsolatedProcessWrapper.heartbeat (C := Nat) (H := Nat) ⟨7, some 1, 0⟩ 601).process_handle
      = none ∧
    IsolatedProcessWrapper.heartbeat (C := Nat) (H := Nat) ⟨7, some 1, 0⟩ 600 = ⟨7, some 1, 0⟩ ∧
    IsolatedProcessWrapper.heartbeat (C := Nat) (H := Nat) ⟨7, none, 0⟩ 601 = ⟨7, none, 0⟩ ∧
    (IsolatedProcessWrapper.query_process (C := Nat) (H := Nat)
        ⟨7, some 1, 0⟩ 42 (.ok 2) (fun h => (.ok "resp", h))).2.last_accessed = 42 := by
  refine ⟨?_, ?_, ?_, ?_⟩
  · exact ((heartbeat_expiry_contract ⟨7, some 1, 0⟩ 601).2.2.1 (by decide) (by decide)).1
  · exact (heartbeat_expiry_contract ⟨7, some 1, 0⟩ 600).2.1 (by decide) (by decide)
  · exact (heartbeat_expiry_contract ⟨7, none, 0⟩ 601).1 rfl
  · exact (heartbeat_expiry_contract ⟨7, some 1, 0⟩ 42).2.2.2.2 (.ok 2) (fun h => (.ok "resp", h))

/-- C3 counterexample: a decoded `ComponentResponse` with a non-empty
`error_message` makes `handle_component_call` return early with the
declared code and the message as body, and no stat event is recorded —
refuting the parenthetical of the claim that responses with non-empty
`error_message` are also recorded. -/
theorem stats_not_recorded_on_error_message :
    handleDecodedResponse ⟨DEFAULT_STAT_WINDOW, []⟩ 0 5 ⟨"body", 200, some "boom"⟩ =
      (.ok ⟨200, "boom"⟩, ⟨DEFAULT_STAT_WINDOW, []⟩) ∧
    ¬ ((handleDecodedResponse ⟨DEFAULT_STAT_WINDOW, []⟩ 0 5
          ⟨"body", 200, some "boom"⟩).2.event_deque.length = 1) := by
  constructor
  · rfl
  · intro h
    simp [handleDecodedResponse] at h

/-- C3 as amended: for every invocation yielding a decoded
`ComponentResponse` whose `error_message` is absent or empty (and whose
numeric fields pass their integer conversions), `handle_component_call`
records the elapsed milliseconds and the response-body byte count into
the stats tracker and returns the declared code with `response_body`;
a response with non-empty `error_message` returns early without touching
the tracker. -/
theorem stats_recorded_on_success (tracker : StatTracker) (now elapsedMs : Nat)
    (response : ComponentResponse)
    (hcode : response.http_response_code < 2 ^ 16)
    (hms : elapsedMs < 2 ^ 32)
    (hbytes : response.response_body.utf8ByteSize < 2 ^ 32)
    (herr : response.error_message = none ∨ response.error_message = some "") :
    handleDecodedResponse tracker now elapsedMs response =
      (.ok ⟨response.http_response_code, response.response_body⟩,
       tracker.add_stat_event now elapsedMs response.response_body.utf8ByteSize) := by
  unfold handleDecodedResponse
  have h1 : ¬ (65536 ≤ response.http_response_code) := by omega
  have h2 : ¬ (4294967296 ≤ elapsedMs) := by omega
  have h3 : ¬ (4294967296 ≤ response.response_body.utf8ByteSize) := by omega
  rcases herr with h | h <;> simp [h, h1, h2, h3]

/-- Witness for C3 (amended): a concrete successful response records its
elapsed milliseconds and body byte count (the 4 bytes of "body"). -/
theorem stats_recorded_on_success_witness :
    handleDecodedResponse ⟨DEFAULT_STAT_WINDOW, []⟩ 0 5 ⟨"body", 200, none⟩ =
      (.ok ⟨200, "body"⟩, ⟨DEFAULT_STAT_WINDOW, [⟨0, 5, 4⟩]⟩) := by
  rw [stats_recorded_on_success ⟨DEFAULT_STAT_WINDOW, []⟩ 0 5 ⟨"body", 200, none⟩
    (by decide) (by decide) (by decide) (Or.inl rfl)]
  rfl

/-- C4: `NamedPipe::write` on a payload containing a newline byte fails
with `InvalidSerialization("contains newline", payload)` and performs no
write to the input FIFO; on a newline-free payload it appends exactly one
trailing newline and hands the payload followed by that newline to the
write loop, whose first `write(2)` call attempts the full framed
buffer. -/
theorem pipe_write_newline_framing (v accepts : List Nat) :
    (10 ∈ v → pipeWrite v accepts =
      (.error (.invalidSerialization "contains newline" v), [])) ∧
    (10 ∉ v → pipeWrite v accepts = writeLoop accepts (v ++ [10]) 0) ∧
    (10 ∉ v → (v ++ [10]).count 10 = 1) ∧
    (10 ∉ v → ∀ a rest, accepts = a :: rest →
      (pipeWrite v accepts).2.head? = some (v ++ [10])) := by
  refine ⟨?_, ?_, ?_, ?_⟩
  · intro h
    simp [pipeWrite, h]
  · intro h
    simp [pipeWrite, h]
  · intro h
    have h0 : v.count 10 = 0 := List.count_eq_zero.mpr h
    simp [List.count_append, h0]
  · intro h a rest ha
    subst ha
    have hlen : 0 < (v ++ [10]).length := by simp
    simp [pipeWrite, h, writeLoop, hlen]

/-- Witness for C4: the embedded write evaluated on the byte string
"a\nb" (rejected, no FIFO write attempted) and on "a" (framed as "a\n"
and handed whole to the first write call). -/
theorem pipe_write_newline_framing_witness :
    pipeWrite [97, 10, 98] [5] =
      (.error (.invalidSerialization "contains newline" [97, 10, 98]), []) ∧
    (pipeWrite [97] [5]).2.head? = some [97, 10] := by
  constructor
  · exact (pipe_write_newline_framing [97, 10, 98] [5]).1 (by decide)
  · exact (pipe_write_newline_framing [97] [5]).2.2.2 (by decide) 5 [] rfl

/-- Hex digit character codes are never the newline byte. -/
lemma hexDigitByte_ne_newline (n : Nat) : hexDigitByte n ≠ 10 := by
  unfold hexDigitByte
  split <;> omega

/-- No byte emitted by `percentEncodeByte` is the newline byte. -/
lemma percentEncodeByte_ne_newline (b x : Nat) (hx : x ∈ percentEncodeByte b) :
    x ≠ 10 := by
  unfold percentEncodeByte at hx
  by_cases hb : isAsciiAlphanumericByte b
  · rw [if_pos hb] at hx
    simp at hx
    subst hx
    simp [isAsciiAlphanumericByte] at hb
    omega
  · rw [if_neg hb] at hx
    simp at hx
    rcases hx with h | h | h
    · omega
    · exact h ▸ hexDigitByte_ne_newline _
    · exact h ▸ hexDigitByte_ne_newline _

/-- C10: percent-encoding with `NON_ALPHANUMERIC` escapes every
non-alphanumeric byte, so the encoded request handed to the wrapper query
contains no raw newline byte; hence on the invoke path the
`InvalidSerialization("contains newline")` rejection branch of
`NamedPipe::write` is never taken and the write proceeds to the framing
and drain loop. -/
theorem encoded_request_newline_free (v : List Nat) :
    10 ∉ percentEncode v ∧
    (∀ accepts, pipeWrite (percentEncode v) accepts =
      writeLoop accepts (percentEncode v ++ [10]) 0) := by
  have hmem : 10 ∉ percentEncode v := by
    intro hmem
    rw [percentEncode, List.mem_flatten] at hmem
    rcases hmem with ⟨l, hl, hx⟩
    rcases List.mem_map.mp hl with ⟨b, _, rfl⟩
    exact percentEncodeByte_ne_newline b 10 hx rfl
  refine ⟨hmem, fun accepts => ?_⟩
  simp [pipeWrite, hmem]

/-- Bucket of the latency-percentile construction as the spec words it:
with `n` the number of sorted latencies and `extra = n mod 10`, bucket `i`
starts at `i*(n/10) + min i extra` and the first `extra` buckets hold one
extra element (`n/10 + 1` instead of `n/10`). -/
def specBucket (l : List Nat) (i : Nat) : List Nat :=
  (l.drop (i * (l.length / 10) + min i (l.length % 10))).take
    (l.length / 10 + if i < l.length % 10 then 1 else 0)

/-- The latency-percentile vector as the spec words it: sort ascending,
split into the 10 buckets of `specBucket`, output the arithmetic mean of
each non-empty bucket, skip empty buckets. -/
def percentileSpec (durations : List Nat) : List ℚ :=
  let sorted := durations.insertionSort (· ≤ ·)
  ((List.range 10).map (specBucket sorted)).filterMap
    (fun s => if s.isEmpty then none else some ((s.sum : ℚ) / (s.length : ℚ)))

/-- The latency-percentile construction with each bucket total accumulated
in a `u32` as the code does (src/component/stats.rs line 115): the pushed
value is the bucket sum mod `2 ^ 32` divided by the bucket size, which is
the arithmetic mean exactly when the total fits in a `u32`. -/
def percentileSpecU32 (durations : List Nat) : List ℚ :=
  let sorted := durations.insertionSort (· ≤ ·)
  ((List.range 10).map (specBucket sorted)).filterMap
    (fun s => if s.isEmpty then none
      else some (((s.sum % 2 ^ 32 : Nat) : ℚ) / (s.length : ℚ)))

/-- A fold that conditionally pushes is a filter-then-map. -/
lemma foldl_push_filter {α β : Type} (p : α → Bool) (m : α → β)
    (l : List α) (acc : List β) :
    l.foldl (fun res i => if p i then res else res ++ [m i]) acc =
      acc ++ ((l.filter fun i => !(p i)).map m) := by
  induction l generalizing acc with
  | nil => simp
  | cons a l ih =>
      by_cases h : p a <;> simp [h, ih, List.filter_cons]

/-- A filterMap whose function is an if-some is a filter-then-map. -/
lemma filterMap_if_eq_filter_map {α β : Type} (p : α → Bool) (m : α → β)
    (l : List α) :
    (l.filterMap fun i => if p i then none else some (m i)) =
      (l.filter fun i => !(p i)).map m := by
  induction l with
  | nil => rfl
  | cons a l ih =>
      by_cases h : p a <;> simp [List.filterMap_cons, List.filter_cons, h, ih]

/-- The slice width the code computes from consecutive starting indices
equals the bucket length the spec describes. -/
lemma bucket_width_eq (r e i : Nat) :
    (i + 1) * r + min (i + 1) e - (i * r + min i e) =
      r + if i < e then 1 else 0 := by
  have hmul : (i + 1) * r = i * r + r := by ring
  rcases Nat.lt_or_ge i e with h | h
  · have h1 : min i e = i := Nat.min_eq_left (Nat.le_of_lt h)
    have h2 : min (i + 1) e = i + 1 := Nat.min_eq_left h
    rw [hmul, h1, h2, if_pos h]
    omega
  · have h1 : min i e = e := Nat.min_eq_right h
    have h2 : min (i + 1) e = e := Nat.min_eq_right (Nat.le_succ_of_le h)
    rw [hmul, h1, h2, if_neg (Nat.not_lt.mpr h)]
    omega

/-- The percentile fold over an already-sorted list equals the
filter-map of the spec buckets. -/
lemma percentile_core (s : List Nat) :
    (List.range 10).foldl
      (fun res i =>
        if ((s.drop (i * (s.length / 10) + min i (s.length % 10))).take
              ((i + 1) * (s.length / 10) + min (i + 1) (s.length % 10) -
                (i * (s.length / 10) + min i (s.length % 10)))).isEmpty then res
        else res ++
          [(((((s.drop (i * (s.length / 10) + min i (s.length % 10))).take
                ((i + 1) * (s.length / 10) + min (i + 1) (s.length % 10) -
                  (i * (s.length / 10) + min i (s.length % 10)))).sum % 2 ^ 32 : Nat) : ℚ) /
            (((s.drop (i * (s.length / 10) + min i (s.length % 10))).take
                ((i + 1) * (s.length / 10) + min (i + 1) (s.length % 10) -
                  (i * (s.length / 10) + min i (s.length % 10)))).length : ℚ))]) [] =
    ((List.range 10).map (specBucket s)).filterMap
      (fun t => if t.isEmpty then none
        else some (((t.sum % 2 ^ 32 : Nat) : ℚ) / (t.length : ℚ))) := by
  have hbucket : ∀ i,
      (s.drop (i * (s.length / 10) + min i (s.length % 10))).take
        ((i + 1) * (s.length / 10) + min (i + 1) (s.length % 10) -
          (i * (s.length / 10) + min i (s.length % 10))) = specBucket s i := by
    intro i
    unfold specBucket
    rw [bucket_width_eq]
  simp only [hbucket]
  rw [foldl_push_filter (fun i => (specBucket s i).isEmpty)
    (fun i => ((((specBucket s i).sum % 2 ^ 32 : Nat) : ℚ) / ((specBucket s i).length : ℚ)))]
  rw [List.filterMap_map]
  rw [show ((fun t => if t.isEmpty = true then none
        else some (((t.sum % 2 ^ 32 : Nat) : ℚ) / (t.length : ℚ))) ∘ specBucket s) =
      (fun i => if (specBucket s i).isEmpty = true then none
        else some ((((specBucket s i).sum % 2 ^ 32 : Nat) : ℚ) / ((specBucket s i).length : ℚ)))
    from rfl]
  rw [filterMap_if_eq_filter_map (fun i => (specBucket s i).isEmpty)
    (fun i => ((((specBucket s i).sum % 2 ^ 32 : Nat) : ℚ) / ((specBucket s i).length : ℚ)))]
  simp

/-- The code percentile function equals the u32-accumulating spec
construction. -/
lemma calc_latency_eq_wrapped (entries : List StatEvent) :
    calculate_latency_percentiles entries =
      percentileSpecU32 (entries.map (·.duration_ms)) := by
  have h := percentile_core ((entries.map (·.duration_ms)).insertionSort (· ≤ ·))
  unfold calculate_latency_percentiles PERCENTILE_BUCKETS percentileSpecU32
  exact h

/-- When every bucket total fits in a `u32`, the u32-accumulating
construction is the exact-mean construction. -/
lemma wrapped_eq_exact (l : List Nat)
    (h : ∀ i < 10, (specBucket (l.insertionSort (· ≤ ·)) i).sum < 2 ^ 32) :
    percentileSpecU32 l = percentileSpec l := by
  simp only [percentileSpecU32, percentileSpec]
  refine List.filterMap_congr ?_
  intro s hs
  rcases List.mem_map.mp hs with ⟨i, hi, rfl⟩
  rw [Nat.mod_eq_of_lt (h i (List.mem_range.mp hi))]

/-- C6 counterexample: eleven recorded durations of 4000000000 ms (valid
`u32` values) put two of them in the first bucket, whose `u32` total
8000000000 wraps to 3705032704, so the code reports 1852516352 where the
arithmetic mean is 4000000000 — the percentile vector is not the vector
of bucket means. -/
theorem latency_percentiles_wrap_counterexample :
    calculate_latency_percentiles
        (List.replicate 11 ⟨0, 4000000000, 0⟩) ≠
      percentileSpec
        ((List.replicate 11 (⟨0, 4000000000, 0⟩ : StatEvent)).map
          (·.duration_ms)) := by
  have hs : (List.replicate 11 (⟨0, 4000000000, 0⟩ : StatEvent)).map
      (·.duration_ms) = List.replicate 11 4000000000 := by decide
  have hsort : (List.replicate 11 (4000000000 : Nat)).insertionSort (· ≤ ·) =
      List.replicate 11 4000000000 := by decide
  have hbuckets : (List.range 10).map
      (specBucket (List.replicate 11 4000000000)) =
      [[4000000000, 4000000000], [4000000000], [4000000000], [4000000000],
       [4000000000], [4000000000], [4000000000], [4000000000], [4000000000],
       [4000000000]] := by decide
  have h1 : calculate_latency_percentiles
      (List.replicate 11 ⟨0, 4000000000, 0⟩) =
      [(1852516352 : ℚ), 4000000000, 4000000000, 4000000000, 4000000000,
       4000000000, 4000000000, 4000000000, 4000000000, 4000000000] := by
    rw [calc_latency_eq_wrapped, hs]
    simp only [percentileSpecU32]
    rw [hsort]
    simp only [hbuckets]
    simp only [List.filterMap_cons, List.filterMap_nil, List.isEmpty_cons,
      Bool.false_eq_true, if_false, List.sum_cons, List.sum_nil,
      List.length_cons, List.length_nil]
    norm_num
  have h2 : percentileSpec (List.replicate 11 (4000000000 : Nat)) =
      [(4000000000 : ℚ), 4000000000, 4000000000, 4000000000, 4000000000,
       4000000000, 4000000000, 4000000000, 4000000000, 4000000000] := by
    simp only [percentileSpec]
    rw [hsort]
    simp only [hbuckets]
    simp only [List.filterMap_cons, List.filterMap_nil, List.isEmpty_cons,
      Bool.false_eq_true, if_false, List.sum_cons, List.sum_nil,
      List.length_cons, List.length_nil]
    norm_num
  rw [hs, h1, h2]
  intro heq
  injection heq with hhead _
  exact absurd hhead (by norm_num)

/-- C6 as amended: the latency-percentile vector is the spec construction
(sort ascending, 10 contiguous buckets with the `extra = n mod 10`
distribution starting bucket `i` at `i*(n/10)+min(i,extra)`, empty
buckets skipped) where each non-empty bucket contributes its
`u32`-accumulated total (sum mod `2 ^ 32`) divided by its size — the
arithmetic mean whenever the bucket total fits in a `u32`; on the inputs
1..=100 the means are 5.5, 15.5, …, 95.5; and empty input yields zero
means and an empty percentile list. -/
theorem latency_percentiles_contract :
    (∀ entries : List StatEvent,
      calculate_latency_percentiles entries =
        percentileSpecU32 (entries.map (·.duration_ms))) ∧
    (∀ entries : List StatEvent,
      (∀ i < 10,
        (specBucket ((entries.map (·.duration_ms)).insertionSort (· ≤ ·)) i).sum
          < 2 ^ 32) →
      calculate_latency_percentiles entries =
        percentileSpec (entries.map (·.duration_ms))) ∧
    (calculate_latency_percentiles
        ((List.range' 1 100).map fun d => ⟨0, d, 0⟩) =
      [5.5, 15.5, 25.5, 35.5, 45.5, 55.5, 65.5, 75.5, 85.5, 95.5]) ∧
    (calculate_latency_percentiles [] = []) ∧
    (∀ window now, (StatTracker.get_component_stats ⟨window, []⟩ now).1 =
      ⟨(window : ℚ), 0, 0, 0, []⟩) := by
  refine ⟨calc_latency_eq_wrapped, ?_, ?_, rfl, ?_⟩
  · intro entries h
    rw [calc_latency_eq_wrapped, wrapped_eq_exact _ h]
  · rw [calc_latency_eq_wrapped]
    have hs : ((List.range' 1 100).map fun d => (⟨0, d, 0⟩ : StatEvent)).map
        (·.duration_ms) = List.range' 1 100 := by decide
    rw [hs]
    unfold percentileSpecU32
    have hsort : (List.range' 1 100).insertionSort (· ≤ ·) = List.range' 1 100 := by
      decide
    rw [hsort]
    have hbuckets : (List.range 10).map (specBucket (List.range' 1 100)) =
        [[1, 2, 3, 4, 5, 6, 7, 8, 9, 10],
         [11, 12, 13, 14, 15, 16, 17, 18, 19, 20],
         [21, 22, 23, 24, 25, 26, 27, 28, 29, 30],
         [31, 32, 33, 34, 35, 36, 37, 38, 39, 40],
         [41, 42, 43, 44, 45, 46, 47, 48, 49, 50],
         [51, 52, 53, 54, 55, 56, 57, 58, 59, 60],
         [61, 62, 63, 64, 65, 66, 67, 68, 69, 70],
         [71, 72, 73, 74, 75, 76, 77, 78, 79, 80],
         [81, 82, 83, 84, 85, 86, 87, 88, 89, 90],
         [91, 92, 93, 94, 95, 96, 97, 98, 99, 100]] := by decide
    simp only [hbuckets]
    simp only [List.filterMap_cons, List.filterMap_nil, List.isEmpty_cons,
      Bool.false_eq_true, if_false, List.sum_cons, List.sum_nil,
      List.length_cons, List.length_nil]
    norm_num
  · intro window now
    simp [StatTracker.get_component_stats, StatTracker.pop_old_events]

set_option maxRecDepth 8000 in
/-- Witness for C6 (amended): on the 1..=100 input every bucket total (at
most 955) fits in a `u32`, so the code vector equals the exact bucket
means of the spec construction. -/
theorem latency_percentiles_contract_witness :
    calculate_latency_percentiles ((List.range' 1 100).map fun d => ⟨0, d, 0⟩) =
      percentileSpec
        (((List.range' 1 100).map fun d => (⟨0, d, 0⟩ : StatEvent)).map
          (·.duration_ms)) :=
  latency_percentiles_contract.2.1 _ (by decide)

/-- Dropping the old prefix of an arrival-sorted event list leaves exactly
the events within the window, and their count is the count of in-window
events of the whole list. -/
lemma dropWhile_old_sorted (c : Nat) (l : List StatEvent)
    (hs : l.Pairwise fun a b => a.arrival ≤ b.arrival) :
    (∀ e ∈ l.dropWhile (fun e => e.arrival < c), c ≤ e.arrival) ∧
    (l.dropWhile (fun e => e.arrival < c)).length =
      l.countP (fun e => c ≤ e.arrival) := by
  induction l with
  | nil => simp
  | cons a l ih =>
    rcases List.pairwise_cons.mp hs with ⟨ha, hl⟩
    by_cases h : a.arrival < c
    · have hih := ih hl
      have hnle : ¬ (c ≤ a.arrival) := Nat.not_le.mpr h
      constructor
      · intro e he
        rw [List.dropWhile_cons, if_pos (decide_eq_true h)] at he
        exact hih.1 e he
      · rw [List.dropWhile_cons, if_pos (decide_eq_true h), List.countP_cons, hih.2]
        simp [hnle]
    · have hle : c ≤ a.arrival := Nat.not_lt.mp h
      have hall : ∀ x ∈ l, c ≤ x.arrival := fun x hx =>
        Nat.le_trans hle (ha x hx)
      constructor
      · intro e he
        simp [List.dropWhile_cons, h] at he
        rcases he with rfl | he
        · exact hle
        · exact hall e he
      · have hcount : l.countP (fun e => c ≤ e.arrival) = l.length :=
          List.countP_eq_length.mpr fun x hx => decide_eq_true (hall x hx)
        simp [List.dropWhile_cons, List.countP_cons, h, hle, hcount]

/-- The tracker returned by `get_component_stats` is the pruned one. -/
lemma get_component_stats_snd (t : StatTracker) (now : Nat) :
    (t.get_component_stats now).2 = t.pop_old_events now := by
  simp only [StatTracker.get_component_stats]
  split <;> rfl

/-- The hits reported by `get_component_stats` count the pruned deque. -/
lemma get_component_stats_hits (t : StatTracker) (now : Nat) :
    (t.get_component_stats now).1.hits =
      (((t.pop_old_events now).event_deque.length : Nat) : ℚ) := by
  simp only [StatTracker.get_component_stats]
  split <;> rfl

/-- C7: for a tracker whose deque is sorted by arrival (as maintained by
monotone insertion), after `get_component_stats` no retained event is
older than `now - stat_window`, the reported hits equal the number of
events inserted within the last `stat_window`, and likewise after every
`add_stat_event` no retained event is older than the window. -/
theorem stat_window_pruning (t : StatTracker) (now : Nat)
    (hsorted : t.event_deque.Pairwise fun a b => a.arrival ≤ b.arrival) :
    (∀ e ∈ (t.get_component_stats now).2.event_deque,
      now - t.stat_window ≤ e.arrival) ∧
    ((t.get_component_stats now).1.hits =
      ((t.event_deque.countP fun e => now - t.stat_window ≤ e.arrival : Nat) : ℚ)) ∧
    (∀ dur bytes, (∀ e ∈ t.event_deque, e.arrival ≤ now) →
      ∀ e ∈ (t.add_stat_event now dur bytes).event_deque,
        now - t.stat_window ≤ e.arrival) := by
  refine ⟨?_, ?_, ?_⟩
  · rw [get_component_stats_snd]
    simp only [StatTracker.pop_old_events]
    exact (dropWhile_old_sorted (now - t.stat_window) t.event_deque hsorted).1
  · rw [get_component_stats_hits]
    simp only [StatTracker.pop_old_events]
    exact_mod_cast congrArg (fun n => ((n : Nat) : ℚ))
      (dropWhile_old_sorted (now - t.stat_window) t.event_deque hsorted).2
  · intro dur bytes hmono
    simp only [StatTracker.add_stat_event, StatTracker.pop_old_events]
    have hsorted2 : List.Pairwise (fun a b => a.arrival ≤ b.arrival)
        (t.event_deque ++ [(⟨now, dur, bytes⟩ : StatEvent)]) := by
      rw [List.pairwise_append]
      exact ⟨hsorted, List.pairwise_singleton _ _,
        fun a hal b hbl => by
          simp at hbl
          subst hbl
          exact hmono a hal⟩
    exact (dropWhile_old_sorted (now - t.stat_window) _ hsorted2).1

/-- Witness for C7: a concrete tracker with window 300 holding an event at
time 0 and one at time 400; a snapshot at time 401 retains only the
in-window event and reports one hit. -/
theorem stat_window_pruning_witness :
    (StatTracker.get_component_stats ⟨300, [⟨0, 1, 1⟩, ⟨400, 2, 2⟩]⟩ 401).1.hits =
      (1 : ℚ) ∧
    (∀ e ∈ (StatTracker.get_component_stats
        ⟨300, [⟨0, 1, 1⟩, ⟨400, 2, 2⟩]⟩ 401).2.event_deque, 101 ≤ e.arrival) := by
  have h := stat_window_pruning ⟨300, [⟨0, 1, 1⟩, ⟨400, 2, 2⟩]⟩ 401 (by decide)
  constructor
  · rw [h.2.1]
    norm_num [List.countP_cons, List.countP_nil]
  · exact h.1

/-- The bytes of a read event: the chunk data, or nothing for EAGAIN. -/
def eventData : ReadEvent → List Nat
  | .chunk bs => bs
  | .eagain => []

/-- An event the read loop consumes without returning: an EAGAIN retry, or
a non-empty chunk free of newline bytes. -/
def cleanEventB : ReadEvent → Bool
  | .eagain => true
  | .chunk bs => !bs.isEmpty && !(10 ∈ bs : Bool)

/-- Everything up to and including the first newline byte of a stream. -/
def upToNewline : List Nat → List Nat
  | [] => []
  | b :: rest => if b = 10 then [10] else b :: upToNewline rest

/-- Scanning a newline-free chunk appends it whole and keeps looping. -/
lemma scanChunk_no_newline (acc bs : List Nat) (h : 10 ∉ bs) :
    scanChunk acc bs = (acc ++ bs, false) := by
  induction bs generalizing acc with
  | nil => simp [scanChunk]
  | cons b rest ih =>
      have hb : b ≠ 10 := fun hb => h (hb ▸ List.mem_cons_self b rest)
      have hrest : 10 ∉ rest := fun hr => h (List.mem_cons_of_mem b hr)
      rw [scanChunk, if_neg hb, ih (acc ++ [b]) hrest]
      simp

/-- Scanning a chunk that contains a newline returns early with
everything up to and including the first newline appended. -/
lemma scanChunk_newline (acc bs : List Nat) (h : 10 ∈ bs) :
    scanChunk acc bs = (acc ++ upToNewline bs, true) := by
  induction bs generalizing acc with
  | nil => simp at h
  | cons b rest ih =>
      by_cases hb : b = 10
      · subst hb
        rw [scanChunk, if_pos rfl]
        simp [upToNewline]
      · have hrest : 10 ∈ rest := by
          rcases List.mem_cons.mp h with h1 | h1
          · exact absurd h1.symm hb
          · exact h1
        rw [scanChunk, if_neg hb, ih (acc ++ [b]) hrest, upToNewline, if_neg hb]
        simp

/-- Newline-free prefixes commute with `upToNewline`. -/
lemma upToNewline_append (l m : List Nat) (h : 10 ∉ l) :
    upToNewline (l ++ m) = l ++ upToNewline m := by
  induction l with
  | nil => rfl
  | cons b rest ih =>
      have hb : b ≠ 10 := fun hb => h (hb ▸ List.mem_cons_self b rest)
      have hrest : 10 ∉ rest := fun hr => h (List.mem_cons_of_mem b hr)
      rw [List.cons_append, upToNewline, if_neg hb, ih hrest]
      rfl

/-- Consuming a clean event prefix accumulates its data. -/
lemma readLoop_clean_prefix (pre : List ReadEvent) (tail : List ReadEvent)
    (acc : List Nat) (h : ∀ x ∈ pre, cleanEventB x = true) :
    readLoop (pre ++ tail) acc =
      readLoop tail (acc ++ (pre.map eventData).flatten) := by
  induction pre generalizing acc with
  | nil => simp
  | cons ev pre ih =>
      have hev := h ev (List.mem_cons_self ev pre)
      have hpre : ∀ x ∈ pre, cleanEventB x = true :=
        fun x hx => h x (List.mem_cons_of_mem ev hx)
      cases ev with
      | eagain =>
          rw [List.cons_append, readLoop, ih _ hpre]
          simp [eventData]
      | chunk bs =>
          simp only [cleanEventB, Bool.and_eq_true, Bool.not_eq_true'] at hev
          rcases hev with ⟨hne, hnl⟩
          have hnl2 : 10 ∉ bs := of_decide_eq_false hnl
          cases bs with
          | nil => simp at hne
          | cons b rest =>
              rw [List.cons_append, readLoop, scanChunk_no_newline acc (b :: rest) hnl2]
              · show readLoop (pre ++ tail) (acc ++ b :: rest) = _
                rw [ih _ hpre]
                simp [eventData]
              · simp

/-- C5: running the read loop past a clean prefix (EAGAIN retries and
newline-free non-empty chunks) into a chunk containing a newline returns
exactly the consumed bytes up to and including the first newline; and a
zero-byte read after a clean prefix fails with `PipeDisconnected`
immediately, whatever data would have followed. -/
theorem pipe_read_line_framing :
    (∀ pre bs rest, (∀ x ∈ pre, cleanEventB x = true) → 10 ∈ bs →
      pipeRead (pre ++ .chunk bs :: rest) =
        .ok (upToNewline ((pre.map eventData).flatten ++ bs))) ∧
    (∀ pre rest, (∀ x ∈ pre, cleanEventB x = true) →
      pipeRead (pre ++ .chunk [] :: rest) = .error .pipeDisconnected) := by
  constructor
  · intro pre bs rest hpre hbs
    have hflat : 10 ∉ (pre.map eventData).flatten := by
      intro hmem
      rw [List.mem_flatten] at hmem
      rcases hmem with ⟨l, hl, hx⟩
      rcases List.mem_map.mp hl with ⟨ev, hev, rfl⟩
      have := hpre ev hev
      cases ev with
      | eagain => simp [eventData] at hx
      | chunk cs =>
          simp only [cleanEventB, Bool.and_eq_true, Bool.not_eq_true'] at this
          rcases this with ⟨_, hnl⟩
          simp only [eventData] at hx
          exact absurd hx (of_decide_eq_false hnl)
    rw [pipeRead, readLoop_clean_prefix pre (.chunk bs :: rest) [] hpre]
    cases bs with
    | nil => simp at hbs
    | cons b tl =>
        rw [readLoop, scanChunk_newline _ _ hbs]
        · show Except.ok (([] ++ (pre.map eventData).flatten) ++ upToNewline (b :: tl)) = _
          rw [upToNewline_append _ _ hflat]
          simp
        · simp
  · intro pre rest hpre
    rw [pipeRead, readLoop_clean_prefix pre (.chunk [] :: rest) [] hpre]
    rfl

/-- Witness for C5: a concrete EAGAIN plus a newline-free chunk followed
by a chunk with an embedded newline yields the bytes through the first
newline (later data is not consumed); the same prefix followed by a
zero-byte read is an immediate disconnect even though more data waits
behind it. -/
theorem pipe_read_line_framing_witness :
    pipeRead [.eagain, .chunk [65], .chunk [66, 10, 67], .chunk [99]] =
      .ok [65, 66, 10] ∧
    pipeRead [.eagain, .chunk [65], .chunk [], .chunk [10]] =
      .error .pipeDisconnected := by
  constructor
  · have h := pipe_read_line_framing.1 [.eagain, .chunk [65]] [66, 10, 67]
      [.chunk [99]] (by decide) (by decide)
    simpa using h
  · exact pipe_read_line_framing.2 [.eagain, .chunk [65]] [.chunk [10]] (by decide)

end V9Worker
